import Mathlib

/-!
# catalog-cd: the `generate-from` subcommand

A shallow embedding of `internal/cmd/generate-from.go` and a verification of
its contract: flag validation in `Complete`, the construction of the external
repository specification in `Run`, and the fail-fast sequencing of the three
stages `Run` drives (REST client creation, `FetchFromExternals`,
`GenerateFilesystem`).

Modelling conventions

* A Go `string` is a Lean `String`. The two library routines the command uses
  (`strings.Split` with the separator `","` and `path.Base`) look for the
  single ASCII bytes `,` and `/`, which never occur inside the encoding of
  another character, so working on characters agrees with working on bytes.
* A Go `error` is `Option GoError`: `none` is `nil`, `some msg` is an error
  carrying the message `msg`.
* A method with a pointer receiver returns the receiver after the call next
  to its result.
* The collaborators of `Run` that live in other packages
  (`api.DefaultRESTClient`, `catalog.FetchFromExternals`,
  `catalog.GenerateFilesystem`) are the fields of an `Env`; `Run` returns,
  next to its error, the trace of the calls it made, in order.
-/

namespace CatalogCD

/-! ## Go library routines used by the command -/

/-- The message carried by a non-nil Go `error`. -/
abbrev GoError := String

/-- Go `fmt.Errorf` applied to a format string without verbs. -/
def fmt.Errorf (msg : String) : Option GoError := some msg

/-- Go `strings.IndexByte`: the index of the first `c` in `s`, `none` for -1. -/
def strings.IndexByte : List Char → Char → Option Nat
  | [], _ => none
  | x :: xs, c =>
    if x = c then some 0
    else
      match strings.IndexByte xs c with
      | some i => some (i + 1)
      | none => none

/-- Go `strings.LastIndexByte`: the index of the last `c` in `s`, `none` for -1. -/
def strings.LastIndexByte : List Char → Char → Option Nat
  | [], _ => none
  | x :: xs, c =>
    match strings.LastIndexByte xs c with
    | some i => some (i + 1)
    | none => if x = c then some 0 else none

/-- Go `strings.Count` for a one-byte separator: the number of `c` in `s`. -/
def strings.Count : List Char → Char → Nat
  | [], _ => 0
  | x :: xs, c => (if x = c then 1 else 0) + strings.Count xs c

/-- The loop of Go `genSplit`: at most `n` cuts at the first separator, the
rest of the string being the last element. `sepSave` bytes of the separator
are kept at the end of each cut element. -/
def strings.genSplitLoop (sep : Char) (sepSave : Nat) : Nat → List Char → List String
  | 0, s => [String.mk s]
  | n + 1, s =>
    match strings.IndexByte s sep with
    | none => [String.mk s]
    | some m =>
      String.mk (s.take (m + sepSave)) ::
        strings.genSplitLoop sep sepSave n (s.drop (m + 1))

/-- Go `strings.genSplit` for a one-byte separator. `n = 0` gives no element,
`n < 0` all of them (`Count + 1`); the element count is capped by
`len(s) + 1` and the loop makes one cut less than the element count. -/
def strings.genSplit (s : String) (sep : Char) (sepSave : Nat) (n : Int) : List String :=
  if n = 0 then []
  else
    let n1 : Nat := if n < 0 then strings.Count s.data sep + 1 else n.toNat
    let n2 : Nat := if n1 > s.data.length + 1 then s.data.length + 1 else n1
    strings.genSplitLoop sep sepSave (n2 - 1) s.data

/-- Go `strings.Split(s, sep)` for a one-byte separator:
`genSplit(s, sep, 0, -1)`. -/
def strings.Split (s : String) (sep : Char) : List String :=
  strings.genSplit s sep 0 (-1)

/-- Go `strings.Join(elems, sep)`. -/
def strings.Join : List String → String → String
  | [], _ => ""
  | [a], _ => a
  | a :: b :: rest, sep => a ++ sep ++ strings.Join (b :: rest) sep

/-- Go `path.Base`: the last element of a slash-separated path. Trailing
slashes are removed before the last element is taken; the empty path gives
`"."` and a path of slashes only gives `"/"`. -/
def path.Base (p : String) : String :=
  if p = "" then "."
  else
    -- strip trailing slashes
    let p1 : List Char := p.data.rdropWhile (fun c => c == '/')
    -- find the last element
    let p2 : List Char :=
      match strings.LastIndexByte p1 '/' with
      | some i => p1.drop (i + 1)
      | none => p1
    -- if empty now, it had only slashes
    if p2 = [] then "/" else String.mk p2

/-- Go `strings.HasPrefix` on the characters of the two strings. -/
def strings.HasPrefix : List Char → List Char → Bool
  | _, [] => true
  | [], _ :: _ => false
  | x :: xs, y :: ys => x == y && strings.HasPrefix xs ys

/-- Go `strings.Index(s, substr) >= 0` on the characters of the two strings. -/
def strings.containsAt : List Char → List Char → Bool
  | [], sub => strings.HasPrefix [] sub
  | x :: xs, sub => strings.HasPrefix (x :: xs) sub || strings.containsAt xs sub

/-- Go `strings.Contains`: whether `substr` occurs within `s`. -/
def strings.Contains (s substr : String) : Bool :=
  strings.containsAt s.data substr.data

/-! ## The command -/

/-- Modelled from the spec: the constant `contract.Filename` of package
`internal/contract`, the default manifest file name "catalog.yaml". -/
def contract.Filename : String := "catalog.yaml"

/-- Modelled from the spec: the constant `contract.ResourcesName` of package
`internal/contract`, the default resource bundle file name
"resources.tar.gz". -/
def contract.ResourcesName : String := "resources.tar.gz"

/-- The string fields of `GenerateFromExternalCmd` a flag can point to. -/
inductive Field where
  | name
  | url
  | resourceType
  | ignoreVersions
  | target
  | catalogName
  | resourceTarballName
  deriving DecidableEq, Repr

/-- One `f.StringVar(&v.field, name, value, usage)` registration. -/
structure StringFlag where
  /-- the field the flag writes to -/
  p : Field
  /-- the flag name, without the leading dashes -/
  name : String
  /-- the default value -/
  value : String
  /-- the help text -/
  usage : String
  deriving DecidableEq, Repr

/-- The part of `cobra.Command` the subcommand sets. -/
structure Command where
  Use : String
  /-- the `n` of `cobra.ExactArgs(n)` -/
  Args : Nat
  Long : String
  Short : String
  SilenceUsage : Bool
  /-- the registered persistent flags, in registration order -/
  PersistentFlags : List StringFlag
  deriving DecidableEq, Repr

/-- The `generate-from` subcommand state. -/
structure GenerateFromExternalCmd where
  /-- cobra command definition -/
  cmd : Command
  /-- name of the repository to pull -/
  name : String
  /-- url of the repository to pull -/
  url : String
  /-- type of resource to pull -/
  resourceType : String
  /-- versions to ignore while pulling -/
  ignoreVersions : String
  /-- path to the folder where we want to generate the catalog -/
  target : String
  /-- name of the contract file to pull -/
  catalogName : String
  /-- name of the resources file to pull -/
  resourceTarballName : String
  deriving DecidableEq, Repr

/-- The long description of the subcommand. -/
def generateLongFromExternalDescription : String :=
  "# catalog-cd generate-partial\n\nGenerates a partial file-based catalog in the target folder, based of a set of flags.\n\n  $ catalog-cd generate-from \\\n      --name=\"foo\" --url=\"https://github.com/openshift-pipelines/task-containers\" \\\n      --type=\"tasks\" \\\n      /path/to/catalog/target\n"

/-- Reads the field a flag points to. -/
def GenerateFromExternalCmd.get (v : GenerateFromExternalCmd) : Field → String
  | .name => v.name
  | .url => v.url
  | .resourceType => v.resourceType
  | .ignoreVersions => v.ignoreVersions
  | .target => v.target
  | .catalogName => v.catalogName
  | .resourceTarballName => v.resourceTarballName

/-- Writes the field a flag points to. -/
def GenerateFromExternalCmd.set (v : GenerateFromExternalCmd) (p : Field) (x : String) :
    GenerateFromExternalCmd :=
  match p with
  | .name => { v with name := x }
  | .url => { v with url := x }
  | .resourceType => { v with resourceType := x }
  | .ignoreVersions => { v with ignoreVersions := x }
  | .target => { v with target := x }
  | .catalogName => { v with catalogName := x }
  | .resourceTarballName => { v with resourceTarballName := x }

/-- The flag-set method `StringVar(p, name, value, usage)`: stores the default
in the field and registers the flag. -/
def StringVar (v : GenerateFromExternalCmd) (p : Field) (name value usage : String) :
    GenerateFromExternalCmd :=
  let v1 := v.set p value
  { v1 with cmd := { v1.cmd with
      PersistentFlags := v1.cmd.PersistentFlags ++ [⟨p, name, value, usage⟩] } }

/-- The flag-set lookup by name. -/
def Lookup (v : GenerateFromExternalCmd) (name : String) : Option StringFlag :=
  v.cmd.PersistentFlags.find? (fun f => f.name == name)

/-- The current value of the flag `--name`, read through its registration;
`none` when no such flag is registered. -/
def flagValue (v : GenerateFromExternalCmd) (name : String) : Option String :=
  (Lookup v name).map (fun f => v.get f.p)

/-- The flag-set method `Set(name, value)`, as run for `--name=value` on the
command line: writes the field of the flag, or fails on an unknown flag. -/
def SetFlag (v : GenerateFromExternalCmd) (name value : String) :
    Except GoError GenerateFromExternalCmd :=
  match Lookup v name with
  | some f => .ok (v.set f.p value)
  | none => .error ("unknown flag: --" ++ name)

/-- Parsing the flags of a command line, given as `(name, value)` pairs in the
order they were passed. -/
def ParseFlags (v : GenerateFromExternalCmd) :
    List (String × String) → Except GoError GenerateFromExternalCmd
  | [] => .ok v
  | (name, value) :: rest =>
    match SetFlag v name value with
    | .ok v1 => ParseFlags v1 rest
    | .error err => .error err

/-- Cmd exposes the cobra command instance. -/
def GenerateFromExternalCmd.Cmd (v : GenerateFromExternalCmd) : Command := v.cmd

/-- Complete asserts the required flags are informed, and stores the single
positional argument as the target. Returns the receiver after the call and the
error. -/
def GenerateFromExternalCmd.Complete (v : GenerateFromExternalCmd) (args : List String) :
    GenerateFromExternalCmd × Option GoError :=
  if v.url = "" then
    (v, fmt.Errorf "flag --config is required")
  else if v.resourceType = "" then
    (v, fmt.Errorf "flag --resourceType is required")
  else if args.length ≠ 1 then
    (v, fmt.Errorf "you must specify a target to generate the catalog in")
  else
    ({ v with target := args.getD 0 "" }, none)

/-- Validate asserts all the required files exists. -/
def GenerateFromExternalCmd.Validate (_v : GenerateFromExternalCmd) : Option GoError := none

/-- The `fc.Repository` fields the command fills. -/
structure Repository where
  Name : String
  URL : String
  IgnoreVersions : List String
  CatalogName : String
  ResourcesTarballName : String
  deriving DecidableEq, Repr

/-- The `fc.External` specification. -/
structure External where
  Repositories : List Repository
  deriving DecidableEq, Repr

/-- The collaborators of `Run`: each is a function of its arguments giving
the value and error the call returns. -/
structure Env (Client Catalog : Type) where
  /-- `api.DefaultRESTClient()` -/
  DefaultRESTClient : Except GoError Client
  /-- `catalog.FetchFromExternals(e, client)` -/
  FetchFromExternals : External → Client → Except GoError Catalog
  /-- `catalog.GenerateFilesystem(target, c, resourceType)` -/
  GenerateFilesystem : String → Catalog → String → Option GoError

/-- A call made by `Run`, with its arguments. -/
inductive Call (Client Catalog : Type) where
  | Infof (url resourceType : String)
  | DefaultRESTClient
  | FetchFromExternals (e : External) (client : Client)
  | GenerateFilesystem (target : String) (c : Catalog) (resourceType : String)
  deriving DecidableEq, Repr

/-- Run creates the REST client, builds the one-repository external
specification from the flags, fetches it and generates the partial catalog in
the target folder. Returns the error and the calls made, in order. -/
def GenerateFromExternalCmd.Run {Client Catalog : Type} (env : Env Client Catalog)
    (v : GenerateFromExternalCmd) : Option GoError × List (Call Client Catalog) :=
  match env.DefaultRESTClient with
  | .error err => (some err, [.Infof v.url v.resourceType, .DefaultRESTClient])
  | .ok ghclient =>
    let name := if v.name = "" then path.Base v.url else v.name
    let ignoreVersions : List String :=
      if v.ignoreVersions ≠ "" then strings.Split v.ignoreVersions ',' else []
    let e : External :=
      { Repositories := [{
          Name := name
          URL := v.url
          IgnoreVersions := ignoreVersions
          CatalogName := v.catalogName
          ResourcesTarballName := v.resourceTarballName }] }
    match env.FetchFromExternals e ghclient with
    | .error err =>
      (some err,
        [.Infof v.url v.resourceType, .DefaultRESTClient, .FetchFromExternals e ghclient])
    | .ok c =>
      (env.GenerateFilesystem v.target c v.resourceType,
        [.Infof v.url v.resourceType, .DefaultRESTClient, .FetchFromExternals e ghclient,
          .GenerateFilesystem v.target c v.resourceType])

/-- NewCatalogGenerateFromExternalCmd instantiates the subcommand: the cobra
command, then the six flags with their defaults. -/
def NewCatalogGenerateFromExternalCmd : GenerateFromExternalCmd :=
  let v : GenerateFromExternalCmd :=
    { cmd :=
        { Use := "generate-from"
          Args := 1
          Long := generateLongFromExternalDescription
          Short := "Generates a partial file-based catalog in the target folder, based of a set of flags."
          SilenceUsage := true
          PersistentFlags := [] }
      name := ""
      url := ""
      resourceType := ""
      ignoreVersions := ""
      target := ""
      catalogName := ""
      resourceTarballName := "" }
  let v := StringVar v .name "name" "" "name of the repository to pull"
  let v := StringVar v .url "url" "" "url of the repository to pull"
  let v := StringVar v .resourceType "type" "" "type of resource to pull"
  let v := StringVar v .ignoreVersions "ignore-versions" "" "versions to ignore while pulling"
  let v := StringVar v .catalogName "catalog-name" contract.Filename "contract name to pull"
  let v := StringVar v .resourceTarballName "resource-tarball-name" contract.ResourcesName
    "resource file to pull"
  v

/-- Tells whether a call is a call of `catalog.FetchFromExternals`. -/
def Call.isFetchFromExternals {Client Catalog : Type} : Call Client Catalog → Bool
  | .FetchFromExternals _ _ => true
  | _ => false

/-- Tells whether a call is a call of `catalog.GenerateFilesystem`. -/
def Call.isGenerateFilesystem {Client Catalog : Type} : Call Client Catalog → Bool
  | .GenerateFilesystem _ _ _ => true
  | _ => false

/-! ## Sample states used to instantiate the theorems -/

/-- The state after `--url=https://github.com/openshift-pipelines/task-containers --type=tasks`. -/
def sampleCmd : GenerateFromExternalCmd :=
  { NewCatalogGenerateFromExternalCmd with
    url := "https://github.com/openshift-pipelines/task-containers"
    resourceType := "tasks" }

/-- An environment in which every stage succeeds; the client is `()`, a
catalog is the list of repository names it was fetched from. -/
def okEnv : Env Unit (List String) :=
  { DefaultRESTClient := .ok ()
    FetchFromExternals := fun e _ => .ok (e.Repositories.map (fun r => r.Name))
    GenerateFilesystem := fun _ _ _ => none }

/-- An environment whose fetch stage fails. -/
def fetchFailsEnv : Env Unit (List String) :=
  { DefaultRESTClient := .ok ()
    FetchFromExternals := fun _ _ => .error "fetch failed"
    GenerateFilesystem := fun _ _ _ => none }

/-- An environment whose client creation fails. -/
def clientFailsEnv : Env Unit (List String) :=
  { DefaultRESTClient := .error "no client"
    FetchFromExternals := fun e _ => .ok (e.Repositories.map (fun r => r.Name))
    GenerateFilesystem := fun _ _ _ => none }

/-- The sample state with `--ignore-versions=v0.1.0,v0.2.0`. -/
def sampleIgnoreCmd : GenerateFromExternalCmd :=
  { sampleCmd with ignoreVersions := "v0.1.0,v0.2.0" }

/-! ## Basic facts -/

theorem string_ne_empty_iff (s : String) : s ≠ "" ↔ s.data ≠ [] := by
  constructor
  · intro h hd
    apply h
    exact String.ext hd
  · intro h hs
    apply h
    rw [hs]

/-! ### `path.Base` -/

theorem LastIndexByte_none (s : List Char) (c : Char) :
    strings.LastIndexByte s c = none ↔ c ∉ s := by
  induction s with
  | nil => simp [strings.LastIndexByte]
  | cons x xs ih =>
    unfold strings.LastIndexByte
    cases h : strings.LastIndexByte xs c with
    | some i =>
      have : c ∈ xs := by
        by_contra hc
        rw [ih.mpr hc] at h
        cases h
      simp [this]
    | none =>
      have hc : c ∉ xs := ih.mp h
      by_cases hx : x = c
      · simp [hx]
      · simp [hx, hc, Ne.symm hx]

/-- The last index splits the string around the last occurrence. -/
theorem LastIndexByte_some (s : List Char) (c : Char) (i : Nat)
    (h : strings.LastIndexByte s c = some i) :
    s = s.take i ++ c :: s.drop (i + 1) ∧ c ∉ s.drop (i + 1) := by
  induction s generalizing i with
  | nil => simp [strings.LastIndexByte] at h
  | cons x xs ih =>
    unfold strings.LastIndexByte at h
    cases hx : strings.LastIndexByte xs c with
    | some j =>
      rw [hx] at h
      simp at h
      subst h
      obtain ⟨h1, h2⟩ := ih j hx
      refine ⟨?_, by simpa using h2⟩
      simp only [List.take_succ_cons, List.drop_succ_cons, List.cons_append, List.cons.injEq,
        true_and]
      exact h1
    | none =>
      rw [hx] at h
      by_cases hc : x = c
      · simp [hc] at h
        subst h
        subst hc
        simp
        exact (LastIndexByte_none xs x).mp hx
      · simp [hc] at h

/-- The list of characters of `path.Base p`, for a non-empty `p`: the part of
`p` without its trailing slashes that follows the last slash, or a single
slash when `p` has only slashes. -/
theorem Base_data (p : String) (hp : p ≠ "") :
    (p.data.rdropWhile (fun c => c == '/') = [] ∧ path.Base p = "/") ∨
    (∃ pre, p.data.rdropWhile (fun c => c == '/') = pre ++ (path.Base p).data ∧
      (pre = [] ∨ pre.getLast? = some '/') ∧
      (path.Base p).data ≠ [] ∧ '/' ∉ (path.Base p).data) := by
  unfold path.Base
  rw [if_neg hp]
  dsimp only
  generalize hp1 : p.data.rdropWhile (fun c => c == '/') = p1
  have hlast : ∀ h : p1 ≠ [], p1.getLast h ≠ '/' := by
    intro h
    have := List.rdropWhile_last_not (fun c => c == '/') p.data (by rw [hp1]; exact h)
    simp only [hp1] at this
    simpa using this
  by_cases hnil : p1 = []
  · left
    subst hnil
    simp [strings.LastIndexByte]
  · right
    cases hi : strings.LastIndexByte p1 '/' with
    | none =>
      have hno := (LastIndexByte_none p1 '/').mp hi
      refine ⟨[], ?_⟩
      simp [hnil, hno]
    | some i =>
      obtain ⟨h1, h2⟩ := LastIndexByte_some p1 '/' i hi
      have hne : List.drop (i + 1) p1 ≠ [] := by
        intro h0
        rw [h0] at h1
        apply hlast hnil
        have : p1.getLast hnil = (List.take i p1 ++ ['/']).getLast (by simp) := by
          congr 1
        rw [this]
        simp
      refine ⟨p1.take i ++ ['/'], ?_⟩
      simp only [hne, if_false]
      refine ⟨?_, ?_, hne, h2⟩
      · simpa using h1
      · right; simp

theorem Base_ne_empty (p : String) : path.Base p ≠ "" := by
  by_cases hp : p = ""
  · subst hp; decide
  · rcases Base_data p hp with ⟨_, h⟩ | ⟨_, _, _, h, _⟩
    · rw [h]; decide
    · exact (string_ne_empty_iff _).mpr h

theorem Base_trailing_slash (p : String) (hp : p ≠ "") : path.Base (p ++ "/") = path.Base p := by
  have h1 : p ++ "/" ≠ "" := by
    rw [string_ne_empty_iff]
    simp
  unfold path.Base
  rw [if_neg hp, if_neg h1]
  have : (p ++ "/").data.rdropWhile (fun c => c == '/') = p.data.rdropWhile (fun c => c == '/') := by
    have : (p ++ "/").data = p.data ++ ['/'] := by simp
    rw [this, List.rdropWhile_concat_pos]
    simp
  rw [this]

/-! ### `strings.Split` -/

theorem Count_eq_count (s : List Char) (c : Char) : strings.Count s c = s.count c := by
  induction s with
  | nil => rfl
  | cons x xs ih =>
    unfold strings.Count
    rw [ih, List.count_cons]
    by_cases h : x = c
    · simp [h]; omega
    · simp [h]

theorem Count_le_length (s : List Char) (c : Char) : strings.Count s c ≤ s.length := by
  rw [Count_eq_count]
  exact List.count_le_length c s

theorem IndexByte_none (s : List Char) (c : Char) (h : strings.IndexByte s c = none) :
    c ∉ s := by
  induction s with
  | nil => simp
  | cons x xs ih =>
    unfold strings.IndexByte at h
    by_cases hx : x = c
    · simp [hx] at h
    · rw [if_neg hx] at h
      cases hi : strings.IndexByte xs c with
      | none => simp [ih hi, Ne.symm hx]
      | some i => rw [hi] at h; cases h

/-- The first index splits the string around the first occurrence. -/
theorem IndexByte_some (s : List Char) (c : Char) (m : Nat)
    (h : strings.IndexByte s c = some m) :
    s = s.take m ++ c :: s.drop (m + 1) ∧ c ∉ s.take m ∧
      strings.Count s c = strings.Count (s.drop (m + 1)) c + 1 := by
  induction s generalizing m with
  | nil => simp [strings.IndexByte] at h
  | cons x xs ih =>
    unfold strings.IndexByte at h
    by_cases hx : x = c
    · simp [hx] at h
      subst h
      subst hx
      simp [strings.Count]
      omega
    · rw [if_neg hx] at h
      cases hi : strings.IndexByte xs c with
      | none => rw [hi] at h; cases h
      | some i =>
        rw [hi] at h
        simp at h
        subst h
        obtain ⟨h1, h2, h3⟩ := ih i hi
        refine ⟨?_, ?_, ?_⟩
        · simp only [List.take_succ_cons, List.drop_succ_cons, List.cons_append,
            List.cons.injEq, true_and]
          exact h1
        · simp [h2, Ne.symm hx]
        · simp [strings.Count, hx, h3]

theorem Join_cons (a : String) (l : List String) (sep : String) (h : l ≠ []) :
    strings.Join (a :: l) sep = a ++ sep ++ strings.Join l sep := by
  cases l with
  | nil => exact absurd rfl h
  | cons b rest => rfl

theorem genSplitLoop_ne_nil (sep : Char) (k n : Nat) (s : List Char) :
    strings.genSplitLoop sep k n s ≠ [] := by
  cases n with
  | zero => simp [strings.genSplitLoop]
  | succ n =>
    unfold strings.genSplitLoop
    cases strings.IndexByte s sep <;> simp

/-- With at least as many cuts allowed as there are separators, the loop of
`genSplit` yields the separator-free segments of the string, one more than
there are separators, and joining them with the separator gives the string. -/
theorem genSplitLoop_spec (sep : Char) (n : Nat) (s : List Char)
    (hn : strings.Count s sep ≤ n) :
    (∀ seg ∈ strings.genSplitLoop sep 0 n s, sep ∉ seg.data) ∧
    (strings.genSplitLoop sep 0 n s).length = strings.Count s sep + 1 ∧
    strings.Join (strings.genSplitLoop sep 0 n s) (String.singleton sep) = String.mk s := by
  induction n generalizing s with
  | zero =>
    have h0 : strings.Count s sep = 0 := by omega
    have hno : sep ∉ s := by
      rw [Count_eq_count] at h0
      exact List.count_eq_zero.mp h0
    simp [strings.genSplitLoop, h0, hno, strings.Join]
  | succ n ih =>
    unfold strings.genSplitLoop
    cases hi : strings.IndexByte s sep with
    | none =>
      have hno := IndexByte_none s sep hi
      have h0 : strings.Count s sep = 0 := by
        rw [Count_eq_count]
        exact List.count_eq_zero.mpr hno
      simp [h0, hno, strings.Join]
    | some m =>
      obtain ⟨h1, h2, h3⟩ := IndexByte_some s sep m hi
      obtain ⟨i1, i2, i3⟩ := ih (s.drop (m + 1)) (by omega)
      refine ⟨?_, ?_, ?_⟩
      · intro seg hseg
        simp only [Nat.add_zero, List.mem_cons] at hseg
        rcases hseg with rfl | hseg
        · exact h2
        · exact i1 seg hseg
      · simp only [Nat.add_zero, List.length_cons, i2, h3]
      · simp only [Nat.add_zero]
        rw [Join_cons _ _ _ (genSplitLoop_ne_nil sep 0 n _), i3]
        apply String.ext
        simp only [String.data_append, String.singleton, List.append_assoc]
        conv_rhs => rw [h1]
        simp

theorem Split_spec (s : String) (sep : Char) :
    (∀ seg ∈ strings.Split s sep, sep ∉ seg.data) ∧
    (strings.Split s sep).length = strings.Count s.data sep + 1 ∧
    strings.Join (strings.Split s sep) (String.singleton sep) = s := by
  have hle := Count_le_length s.data sep
  have : strings.Split s sep = strings.genSplitLoop sep 0 (strings.Count s.data sep) s.data := by
    unfold strings.Split strings.genSplit
    have h2 : ¬ (s.length < strings.Count s.data sep) := Nat.not_lt.mpr hle
    simp [h2]
  rw [this]
  exact genSplitLoop_spec sep _ s.data (le_refl _)

theorem IndexByte_append (a t : List Char) (c : Char) (h : c ∉ a) :
    strings.IndexByte (a ++ c :: t) c = some a.length := by
  induction a with
  | nil => simp [strings.IndexByte]
  | cons x xs ih =>
    simp only [List.mem_cons, not_or] at h
    have hx : ¬ x = c := Ne.symm h.1
    rw [List.cons_append]
    unfold strings.IndexByte
    rw [if_neg hx, ih h.2]
    rfl

theorem Count_append (a t : List Char) (c : Char) :
    strings.Count (a ++ t) c = strings.Count a c + strings.Count t c := by
  simp [Count_eq_count]

/-- The loop of `genSplit` undoes `Join`: a non-empty list of separator-free
strings is what the loop returns on the joined string. -/
theorem genSplitLoop_Join (sep : Char) (L : List String) (hL : L ≠ [])
    (hfree : ∀ seg ∈ L, sep ∉ seg.data) (n : Nat)
    (hn : strings.Count (strings.Join L (String.singleton sep)).data sep ≤ n) :
    strings.genSplitLoop sep 0 n (strings.Join L (String.singleton sep)).data = L := by
  induction L generalizing n with
  | nil => exact absurd rfl hL
  | cons a rest ih =>
    have ha : sep ∉ a.data := hfree a (List.mem_cons_self _ _)
    cases rest with
    | nil =>
      have h0 : strings.Count a.data sep = 0 := by
        rw [Count_eq_count]
        exact List.count_eq_zero.mpr ha
      have hi : strings.IndexByte a.data sep = none := by
        cases hx : strings.IndexByte a.data sep with
        | none => rfl
        | some m =>
          have := (IndexByte_some a.data sep m hx).2.2
          omega
      cases n with
      | zero => simp [strings.Join, strings.genSplitLoop]
      | succ n => simp [strings.Join, strings.genSplitLoop, hi]
    | cons b rest =>
      have hdata : (strings.Join (a :: b :: rest) (String.singleton sep)).data =
          a.data ++ sep :: (strings.Join (b :: rest) (String.singleton sep)).data := by
        simp [strings.Join, String.singleton]
      rw [hdata] at hn ⊢
      have hcount : strings.Count
          (a.data ++ sep :: (strings.Join (b :: rest) (String.singleton sep)).data) sep =
          strings.Count (strings.Join (b :: rest) (String.singleton sep)).data sep + 1 := by
        have h0 : strings.Count a.data sep = 0 := by
          rw [Count_eq_count]
          exact List.count_eq_zero.mpr ha
        rw [Count_append, h0]
        simp [strings.Count]
        omega
      rw [hcount] at hn
      cases n with
      | zero => omega
      | succ n =>
        unfold strings.genSplitLoop
        rw [IndexByte_append _ _ _ ha]
        simp only [Nat.add_zero, List.take_left', List.drop_left', List.cons.injEq, true_and]
        have : List.drop (a.data.length + 1)
            (a.data ++ sep :: (strings.Join (b :: rest) (String.singleton sep)).data) =
            (strings.Join (b :: rest) (String.singleton sep)).data := by
          rw [List.drop_append_eq_append_drop]
          simp
        rw [this]
        exact ih (by simp) (fun seg hseg => hfree seg (List.mem_cons_of_mem _ hseg)) n
          (by omega)

/-- The result of `Split` is the only non-empty list of separator-free strings
whose `Join` is the split string. -/
theorem Split_unique (s : String) (sep : Char) (L : List String) (hL : L ≠ [])
    (hfree : ∀ seg ∈ L, sep ∉ seg.data)
    (hjoin : strings.Join L (String.singleton sep) = s) :
    strings.Split s sep = L := by
  have hle := Count_le_length s.data sep
  have : strings.Split s sep = strings.genSplitLoop sep 0 (strings.Count s.data sep) s.data := by
    unfold strings.Split strings.genSplit
    have h2 : ¬ (s.length < strings.Count s.data sep) := Nat.not_lt.mpr hle
    simp [h2]
  rw [this]
  subst hjoin
  exact genSplitLoop_Join sep L hL hfree _ (le_refl _)

/-! ### The command -/

/-- The receiver and error of `Complete`, case by case. -/
theorem Complete_cases (v : GenerateFromExternalCmd) (args : List String) :
    (v.url = "" ∧ v.Complete args = (v, some "flag --config is required")) ∨
    (v.url ≠ "" ∧ v.resourceType = "" ∧
      v.Complete args = (v, some "flag --resourceType is required")) ∨
    (v.url ≠ "" ∧ v.resourceType ≠ "" ∧ args.length ≠ 1 ∧
      v.Complete args = (v, some "you must specify a target to generate the catalog in")) ∨
    (v.url ≠ "" ∧ v.resourceType ≠ "" ∧ ∃ a, args = [a] ∧
      v.Complete args = ({ v with target := a }, none)) := by
  unfold GenerateFromExternalCmd.Complete fmt.Errorf
  by_cases h1 : v.url = ""
  · simp [h1]
  · by_cases h2 : v.resourceType = ""
    · simp [h1, h2]
    · by_cases h3 : args.length = 1
      · right; right; right
        obtain ⟨a, rfl⟩ := List.length_eq_one.mp h3
        simp [h1, h2]
      · simp [h1, h2, h3]

/-- After a successful `Complete` the target is the single argument; the
command and the resource type are unchanged. -/
theorem Complete_ok_state (v : GenerateFromExternalCmd) (args : List String)
    (h : (v.Complete args).2 = none) :
    args = [(v.Complete args).1.target] ∧
    (v.Complete args).1.cmd = v.cmd ∧
    (v.Complete args).1.resourceType = v.resourceType := by
  rcases Complete_cases v args with ⟨h1, hc⟩ | ⟨h1, h2, hc⟩ | ⟨h1, h2, h3, hc⟩ |
    ⟨h1, h2, a, rfl, hc⟩ <;>
  · rw [hc] at h ⊢; simp at h ⊢

/-- `Complete` leaves the two artifact names as they are. -/
theorem Complete_names (v : GenerateFromExternalCmd) (args : List String) :
    (v.Complete args).1.catalogName = v.catalogName ∧
    (v.Complete args).1.resourceTarballName = v.resourceTarballName := by
  rcases Complete_cases v args with ⟨h1, hc⟩ | ⟨h1, h2, hc⟩ | ⟨h1, h2, h3, hc⟩ |
    ⟨h1, h2, a, rfl, hc⟩ <;>
  · rw [hc]; simp

/-- The error and the trace of `Run`, case by case on the outcome of the
stages. -/
theorem Run_cases {Client Catalog : Type} (env : Env Client Catalog)
    (v : GenerateFromExternalCmd) :
    (∃ err, env.DefaultRESTClient = .error err ∧
      v.Run env = (some err, [.Infof v.url v.resourceType, .DefaultRESTClient])) ∨
    (∃ cl r, env.DefaultRESTClient = .ok cl ∧
      r.Name = (if v.name = "" then path.Base v.url else v.name) ∧
      r.URL = v.url ∧
      r.IgnoreVersions =
        (if v.ignoreVersions ≠ "" then strings.Split v.ignoreVersions ',' else []) ∧
      r.CatalogName = v.catalogName ∧
      r.ResourcesTarballName = v.resourceTarballName ∧
      ((∃ err, env.FetchFromExternals ⟨[r]⟩ cl = .error err ∧
          v.Run env = (some err,
            [.Infof v.url v.resourceType, .DefaultRESTClient,
              .FetchFromExternals ⟨[r]⟩ cl])) ∨
        (∃ c, env.FetchFromExternals ⟨[r]⟩ cl = .ok c ∧
          v.Run env = (env.GenerateFilesystem v.target c v.resourceType,
            [.Infof v.url v.resourceType, .DefaultRESTClient,
              .FetchFromExternals ⟨[r]⟩ cl,
              .GenerateFilesystem v.target c v.resourceType])))) := by
  unfold GenerateFromExternalCmd.Run
  cases h : env.DefaultRESTClient with
  | error err => left; exact ⟨err, rfl, rfl⟩
  | ok cl =>
    right
    refine ⟨cl, ⟨if v.name = "" then path.Base v.url else v.name, v.url,
      if v.ignoreVersions ≠ "" then strings.Split v.ignoreVersions ',' else [],
      v.catalogName, v.resourceTarballName⟩, rfl, rfl, rfl, rfl, rfl, rfl, ?_⟩
    dsimp only
    cases he : env.FetchFromExternals _ cl with
    | error err => left; exact ⟨err, rfl, rfl⟩
    | ok c => right; exact ⟨c, rfl, rfl⟩

/-- Every `FetchFromExternals` call in the trace of `Run` carries the
one-repository specification built from the state. -/
theorem Run_fetch_mem {Client Catalog : Type} (env : Env Client Catalog)
    (v : GenerateFromExternalCmd) (e : External) (cl : Client)
    (h : Call.FetchFromExternals e cl ∈ (v.Run env).2) :
    env.DefaultRESTClient = .ok cl ∧
    ∃ r, e.Repositories = [r] ∧
      r.Name = (if v.name = "" then path.Base v.url else v.name) ∧
      r.URL = v.url ∧
      r.IgnoreVersions =
        (if v.ignoreVersions ≠ "" then strings.Split v.ignoreVersions ',' else []) ∧
      r.CatalogName = v.catalogName ∧
      r.ResourcesTarballName = v.resourceTarballName := by
  rcases Run_cases env v with ⟨err, _, hr⟩ | ⟨cl1, r, hc, h1, h2, h3, h4, h5, hrun⟩
  · rw [hr] at h
    simp at h
  · rcases hrun with ⟨err, _, hr⟩ | ⟨c, _, hr⟩ <;>
    · rw [hr] at h
      simp at h
      obtain ⟨rfl, rfl⟩ := h
      exact ⟨hc, r, rfl, h1, h2, h3, h4, h5⟩

/-- When the REST client is created, `Run` calls `FetchFromExternals`. -/
theorem Run_fetch_exists {Client Catalog : Type} (env : Env Client Catalog)
    (v : GenerateFromExternalCmd) (cl : Client) (h : env.DefaultRESTClient = .ok cl) :
    ∃ e, Call.FetchFromExternals e cl ∈ (v.Run env).2 := by
  rcases Run_cases env v with ⟨err, he, _⟩ | ⟨cl1, r, hc, -, -, -, -, -, hrun⟩
  · rw [h] at he; cases he
  · rw [h] at hc
    cases hc
    rcases hrun with ⟨err, _, hr⟩ | ⟨c, _, hr⟩ <;>
    · refine ⟨⟨[r]⟩, ?_⟩
      rw [hr]
      simp

/-- The flags registered by `NewCatalogGenerateFromExternalCmd` read the
fields they were registered with. -/
theorem flagValue_of_cmd (v : GenerateFromExternalCmd)
    (h : v.cmd = NewCatalogGenerateFromExternalCmd.cmd) :
    flagValue v "name" = some v.name ∧
    flagValue v "url" = some v.url ∧
    flagValue v "type" = some v.resourceType ∧
    flagValue v "ignore-versions" = some v.ignoreVersions ∧
    flagValue v "catalog-name" = some v.catalogName ∧
    flagValue v "resource-tarball-name" = some v.resourceTarballName := by
  unfold flagValue Lookup
  rw [h]
  refine ⟨rfl, rfl, rfl, rfl, rfl, rfl⟩

/-- Writing a field through a flag leaves the command definition alone. -/
theorem set_cmd (v : GenerateFromExternalCmd) (p : Field) (x : String) :
    (v.set p x).cmd = v.cmd := by
  cases p <;> rfl

/-- Setting a flag other than `--catalog-name` and `--resource-tarball-name`
on the command built by `NewCatalogGenerateFromExternalCmd` keeps the two
artifact names. -/
theorem SetFlag_names (v v1 : GenerateFromExternalCmd) (name value : String)
    (hcmd : v.cmd = NewCatalogGenerateFromExternalCmd.cmd)
    (hname : name ≠ "catalog-name" ∧ name ≠ "resource-tarball-name")
    (h : SetFlag v name value = .ok v1) :
    v1.cmd = v.cmd ∧ v1.catalogName = v.catalogName ∧
      v1.resourceTarballName = v.resourceTarballName := by
  unfold SetFlag at h
  cases hl : Lookup v name with
  | none => rw [hl] at h; cases h
  | some f =>
    rw [hl] at h
    cases h
    refine ⟨set_cmd _ _ _, ?_⟩
    unfold Lookup at hl
    rw [hcmd] at hl
    have hmem := List.mem_of_find?_eq_some hl
    have hf := List.find?_some hl
    simp only [beq_iff_eq] at hf
    have hall : ∀ g ∈ NewCatalogGenerateFromExternalCmd.cmd.PersistentFlags,
        (g.p = .catalogName → g.name = "catalog-name") ∧
        (g.p = .resourceTarballName → g.name = "resource-tarball-name") := by decide
    obtain ⟨g1, g2⟩ := hall f hmem
    rw [hf] at g1 g2
    have n1 : f.p ≠ .catalogName := fun hp => hname.1 (g1 hp)
    have n2 : f.p ≠ .resourceTarballName := fun hp => hname.2 (g2 hp)
    cases hp : f.p <;> simp_all [GenerateFromExternalCmd.set]

/-- Parsing flags other than `--catalog-name` and `--resource-tarball-name`
keeps the two artifact names. -/
theorem ParseFlags_names (flags : List (String × String)) (v v1 : GenerateFromExternalCmd)
    (hcmd : v.cmd = NewCatalogGenerateFromExternalCmd.cmd)
    (hnot : ∀ a ∈ flags, a.1 ≠ "catalog-name" ∧ a.1 ≠ "resource-tarball-name")
    (h : ParseFlags v flags = .ok v1) :
    v1.catalogName = v.catalogName ∧ v1.resourceTarballName = v.resourceTarballName := by
  induction flags generalizing v with
  | nil =>
    simp only [ParseFlags, Except.ok.injEq] at h
    subst h
    exact ⟨rfl, rfl⟩
  | cons a rest ih =>
    obtain ⟨name, value⟩ := a
    unfold ParseFlags at h
    cases hs : SetFlag v name value with
    | error err => rw [hs] at h; cases h
    | ok v2 =>
      rw [hs] at h
      obtain ⟨c1, c2, c3⟩ :=
        SetFlag_names v v2 name value hcmd (hnot _ (List.mem_cons_self _ _)) hs
      obtain ⟨i1, i2⟩ := ih v2 (c1.trans hcmd)
        (fun b hb => hnot b (List.mem_cons_of_mem _ hb)) h
      exact ⟨i1.trans c2, i2.trans c3⟩

/-! ## Complete -/

/-- C1: `Complete` returns no error exactly when the url is non-empty, the
resource type is non-empty and there is exactly one argument; otherwise it
returns an error. After a successful `Complete` the url and the resource type
of the state are non-empty, so every repository `Run` hands to
`FetchFromExternals` has a non-empty URL. -/
theorem Complete_ok_iff_required (v : GenerateFromExternalCmd) (args : List String) :
    ((v.Complete args).2 = none ↔
      (v.url ≠ "" ∧ v.resourceType ≠ "" ∧ args.length = 1)) ∧
    (¬ (v.url ≠ "" ∧ v.resourceType ≠ "" ∧ args.length = 1) →
      ∃ msg, (v.Complete args).2 = some msg) ∧
    ((v.Complete args).2 = none →
      (v.Complete args).1.url ≠ "" ∧ (v.Complete args).1.resourceType ≠ "" ∧
      ∀ (Client Catalog : Type) (env : Env Client Catalog) (e : External) (cl : Client),
        Call.FetchFromExternals e cl ∈ ((v.Complete args).1.Run env).2 →
        e.Repositories ≠ [] ∧ ∀ r ∈ e.Repositories, r.URL ≠ "") := by
  rcases Complete_cases v args with ⟨h1, hc⟩ | ⟨h1, h2, hc⟩ | ⟨h1, h2, h3, hc⟩ |
    ⟨h1, h2, a, rfl, hc⟩
  · rw [hc]; simp [h1]
  · rw [hc]; simp [h2]
  · rw [hc]; simp [h3]
  · rw [hc]
    refine ⟨by simp [h1, h2], by simp [h1, h2], fun _ => ⟨h1, h2, ?_⟩⟩
    intro Client Catalog env e cl hmem
    obtain ⟨_, r, hr, _, hurl, _⟩ := Run_fetch_mem env _ e cl hmem
    rw [hr]
    simp only [ne_eq, List.cons_ne_nil, not_false_eq_true, List.mem_singleton, forall_eq,
      true_and]
    rw [hurl]
    exact h1

theorem Complete_ok_iff_required_witness :
    (sampleCmd.Complete ["/path/to/catalog/target"]).2 = none ∧
    (sampleCmd.Complete ["/path/to/catalog/target"]).1.url ≠ "" ∧
    (sampleCmd.Complete ["/path/to/catalog/target"]).1.resourceType ≠ "" :=
  ⟨by decide,
    ((Complete_ok_iff_required sampleCmd ["/path/to/catalog/target"]).2.2 (by decide)).1,
    ((Complete_ok_iff_required sampleCmd ["/path/to/catalog/target"]).2.2 (by decide)).2.1⟩

/-- C9: `Complete` changes at most the target. On success the target is the
single argument and every other field is unchanged; on error the whole state,
target included, is unchanged. -/
theorem Complete_frame (v : GenerateFromExternalCmd) (args : List String) :
    ((v.Complete args).2 = none →
      args = [(v.Complete args).1.target] ∧
      (v.Complete args).1.cmd = v.cmd ∧
      (v.Complete args).1.name = v.name ∧
      (v.Complete args).1.url = v.url ∧
      (v.Complete args).1.resourceType = v.resourceType ∧
      (v.Complete args).1.ignoreVersions = v.ignoreVersions ∧
      (v.Complete args).1.catalogName = v.catalogName ∧
      (v.Complete args).1.resourceTarballName = v.resourceTarballName) ∧
    ((v.Complete args).2 ≠ none → (v.Complete args).1 = v) := by
  rcases Complete_cases v args with ⟨h1, hc⟩ | ⟨h1, h2, hc⟩ | ⟨h1, h2, h3, hc⟩ |
    ⟨h1, h2, a, rfl, hc⟩ <;>
  · rw [hc]; simp

theorem Complete_frame_witness :
    ["/path/to/catalog/target"] = [(sampleCmd.Complete ["/path/to/catalog/target"]).1.target] ∧
    (NewCatalogGenerateFromExternalCmd.Complete ["/path/to/catalog/target"]).1 =
      NewCatalogGenerateFromExternalCmd :=
  ⟨((Complete_frame sampleCmd ["/path/to/catalog/target"]).1 (by decide)).1,
    (Complete_frame NewCatalogGenerateFromExternalCmd ["/path/to/catalog/target"]).2
      (by decide)⟩

/-! ## Run: sequencing of the stages -/

/-- C3: `Run` is fail-fast over its three stages. If the REST client cannot be
created, `Run` returns that error and calls neither `FetchFromExternals` nor
`GenerateFilesystem`. Otherwise it calls `FetchFromExternals` once; if that
fails, `Run` returns that error and does not call `GenerateFilesystem`; if it
succeeds, `Run` returns exactly what `GenerateFilesystem` returns. `Run`
returns nil only when all three stages returned no error. -/
theorem Run_fail_fast {Client Catalog : Type} (env : Env Client Catalog)
    (v : GenerateFromExternalCmd) :
    (∀ err, env.DefaultRESTClient = .error err →
      (v.Run env).1 = some err ∧
      (v.Run env).2.filter Call.isFetchFromExternals = [] ∧
      (v.Run env).2.filter Call.isGenerateFilesystem = []) ∧
    (∀ cl, env.DefaultRESTClient = .ok cl →
      ∃ e, (v.Run env).2.filter Call.isFetchFromExternals = [.FetchFromExternals e cl] ∧
        (∀ err, env.FetchFromExternals e cl = .error err →
          (v.Run env).1 = some err ∧
          (v.Run env).2.filter Call.isGenerateFilesystem = []) ∧
        (∀ c, env.FetchFromExternals e cl = .ok c →
          (v.Run env).1 = env.GenerateFilesystem v.target c v.resourceType ∧
          (v.Run env).2.filter Call.isGenerateFilesystem =
            [.GenerateFilesystem v.target c v.resourceType])) ∧
    ((v.Run env).1 = none →
      ∃ cl e c, env.DefaultRESTClient = .ok cl ∧
        Call.FetchFromExternals e cl ∈ (v.Run env).2 ∧
        env.FetchFromExternals e cl = .ok c ∧
        env.GenerateFilesystem v.target c v.resourceType = none) := by
  rcases Run_cases env v with ⟨err, he, hr⟩ | ⟨cl, r, hc, -, -, -, -, -, hrun⟩
  · rw [hr, he]
    simp [Call.isFetchFromExternals, Call.isGenerateFilesystem]
  · rcases hrun with ⟨err, hf, hr⟩ | ⟨c, hf, hr⟩
    · rw [hr, hc]
      refine ⟨by simp, ?_, by simp⟩
      intro cl1 h1
      cases h1
      refine ⟨⟨[r]⟩, by simp [Call.isFetchFromExternals], ?_, ?_⟩
      · intro err1 h2
        rw [hf] at h2
        cases h2
        simp [Call.isGenerateFilesystem]
      · intro c h2
        rw [hf] at h2
        cases h2
    · rw [hr, hc]
      refine ⟨by simp, ?_, ?_⟩
      · intro cl1 h1
        cases h1
        refine ⟨⟨[r]⟩, by simp [Call.isFetchFromExternals], ?_, ?_⟩
        · intro err1 h2
          rw [hf] at h2
          cases h2
        · intro c1 h2
          rw [hf] at h2
          cases h2
          simp [Call.isGenerateFilesystem]
      · intro h
        exact ⟨cl, ⟨[r]⟩, c, rfl, by simp, hf, h⟩

theorem Run_fail_fast_witness :
    ((sampleCmd.Run clientFailsEnv).1 = some "no client" ∧
      (sampleCmd.Run clientFailsEnv).2.filter Call.isFetchFromExternals = [] ∧
      (sampleCmd.Run clientFailsEnv).2.filter Call.isGenerateFilesystem = []) ∧
    (∃ e, (sampleCmd.Run fetchFailsEnv).2.filter Call.isFetchFromExternals =
        [.FetchFromExternals e ()]) ∧
    (∃ cl e c, okEnv.DefaultRESTClient = .ok cl ∧
        Call.FetchFromExternals e cl ∈ (sampleCmd.Run okEnv).2 ∧
        okEnv.FetchFromExternals e cl = .ok c ∧
        okEnv.GenerateFilesystem sampleCmd.target c sampleCmd.resourceType = none) :=
  ⟨(Run_fail_fast clientFailsEnv sampleCmd).1 "no client" rfl,
    ((Run_fail_fast fetchFailsEnv sampleCmd).2.1 () rfl).imp (fun _ h => h.1),
    (Run_fail_fast okEnv sampleCmd).2.2 (by decide)⟩

/-- C4: after a successful `Complete`, whenever `Run` reaches the filesystem
generation stage (the client was created and the fetch returned a catalog) it
calls `GenerateFilesystem` exactly once, with the single positional argument
as target, the catalog returned by `FetchFromExternals` and the resource type
of the state, which `Complete` left unchanged and which on the command built
by `NewCatalogGenerateFromExternalCmd` is the value of the `--type` flag. -/
theorem Run_generate_arguments {Client Catalog : Type} (env : Env Client Catalog)
    (v : GenerateFromExternalCmd) (args : List String)
    (hok : (v.Complete args).2 = none)
    (cl : Client) (e : External) (c : Catalog)
    (hclient : env.DefaultRESTClient = .ok cl)
    (hcall : Call.FetchFromExternals e cl ∈ ((v.Complete args).1.Run env).2)
    (hfetch : env.FetchFromExternals e cl = .ok c) :
    ∃ target,
      args = [target] ∧
      ((v.Complete args).1.Run env).2.filter Call.isGenerateFilesystem =
        [.GenerateFilesystem target c v.resourceType] ∧
      (v.cmd = NewCatalogGenerateFromExternalCmd.cmd →
        flagValue v "type" = some v.resourceType ∧
        flagValue (v.Complete args).1 "type" = some v.resourceType) := by
  obtain ⟨htarget, hcmd1, hrt⟩ := Complete_ok_state v args hok
  refine ⟨(v.Complete args).1.target, htarget, ?_, fun hcmd =>
    ⟨(flagValue_of_cmd v hcmd).2.2.1, ?_⟩⟩
  · rcases Run_cases env (v.Complete args).1 with
      ⟨err, he, hr⟩ | ⟨cl1, r, hc, -, -, -, -, -, hrun⟩
    · rw [hclient] at he; cases he
    · rw [hclient] at hc
      cases hc
      rcases hrun with ⟨err, hf, hr⟩ | ⟨c1, hf, hr⟩
      · rw [hr] at hcall
        simp at hcall
        rw [← hcall] at hf
        rw [hfetch] at hf
        cases hf
      · rw [hr] at hcall
        simp at hcall
        rw [← hcall] at hf
        rw [hfetch] at hf
        cases hf
        rw [hr, hrt]
        simp [Call.isGenerateFilesystem]
  · rw [← hrt]
    exact (flagValue_of_cmd _ (hcmd1.trans hcmd)).2.2.1

theorem Run_generate_arguments_witness :
    ∃ target,
      ["/path/to/catalog/target"] = [target] ∧
      ((sampleCmd.Complete ["/path/to/catalog/target"]).1.Run okEnv).2.filter
          Call.isGenerateFilesystem =
        [.GenerateFilesystem target ["task-containers"] sampleCmd.resourceType] ∧
      (sampleCmd.cmd = NewCatalogGenerateFromExternalCmd.cmd →
        flagValue sampleCmd "type" = some sampleCmd.resourceType ∧
        flagValue (sampleCmd.Complete ["/path/to/catalog/target"]).1 "type" =
          some sampleCmd.resourceType) :=
  Run_generate_arguments okEnv sampleCmd ["/path/to/catalog/target"] (by decide) ()
    ⟨[⟨"task-containers", "https://github.com/openshift-pipelines/task-containers", [],
      "catalog.yaml", "resources.tar.gz"⟩]⟩
    ["task-containers"] rfl (by decide) rfl

/-! ## Run: the repository handed to the fetcher -/

/-- C5: the specification `Run` passes to `FetchFromExternals` has exactly one
repository; its URL, CatalogName and ResourcesTarballName are the url,
catalogName and resourceTarballName of the state, which on the command built
by `NewCatalogGenerateFromExternalCmd` are the values of the flags `--url`,
`--catalog-name` and `--resource-tarball-name`. -/
theorem Run_repository_fields {Client Catalog : Type} (env : Env Client Catalog)
    (v : GenerateFromExternalCmd) (e : External) (cl : Client)
    (hcall : Call.FetchFromExternals e cl ∈ (v.Run env).2) :
    ∃ r, e.Repositories = [r] ∧
      r.URL = v.url ∧
      r.CatalogName = v.catalogName ∧
      r.ResourcesTarballName = v.resourceTarballName ∧
      (v.cmd = NewCatalogGenerateFromExternalCmd.cmd →
        flagValue v "url" = some r.URL ∧
        flagValue v "catalog-name" = some r.CatalogName ∧
        flagValue v "resource-tarball-name" = some r.ResourcesTarballName) := by
  obtain ⟨_, r, hr, _, h2, _, h4, h5⟩ := Run_fetch_mem env v e cl hcall
  refine ⟨r, hr, h2, h4, h5, fun hcmd => ?_⟩
  obtain ⟨_, f2, _, _, f5, f6⟩ := flagValue_of_cmd v hcmd
  rw [h2, h4, h5]
  exact ⟨f2, f5, f6⟩

theorem Run_repository_fields_witness :
    ∃ r, (⟨[⟨"task-containers", "https://github.com/openshift-pipelines/task-containers", [],
        "catalog.yaml", "resources.tar.gz"⟩]⟩ : External).Repositories = [r] ∧
      r.URL = sampleCmd.url ∧
      r.CatalogName = sampleCmd.catalogName ∧
      r.ResourcesTarballName = sampleCmd.resourceTarballName ∧
      (sampleCmd.cmd = NewCatalogGenerateFromExternalCmd.cmd →
        flagValue sampleCmd "url" = some r.URL ∧
        flagValue sampleCmd "catalog-name" = some r.CatalogName ∧
        flagValue sampleCmd "resource-tarball-name" = some r.ResourcesTarballName) :=
  Run_repository_fields okEnv sampleCmd _ () (by decide)

/-- C6: on the command built by `NewCatalogGenerateFromExternalCmd`, when the
flags passed include neither `--catalog-name` nor `--resource-tarball-name`,
the repository handed to the fetcher has CatalogName "catalog.yaml" and
ResourcesTarballName "resources.tar.gz". -/
theorem Run_default_names {Client Catalog : Type} (env : Env Client Catalog)
    (flags : List (String × String)) (args : List String) (v : GenerateFromExternalCmd)
    (hparse : ParseFlags NewCatalogGenerateFromExternalCmd flags = .ok v)
    (hnot : ∀ a ∈ flags, a.1 ≠ "catalog-name" ∧ a.1 ≠ "resource-tarball-name")
    (e : External) (cl : Client)
    (hcall : Call.FetchFromExternals e cl ∈ ((v.Complete args).1.Run env).2) :
    ∃ r, e.Repositories = [r] ∧
      r.CatalogName = "catalog.yaml" ∧ r.ResourcesTarballName = "resources.tar.gz" := by
  obtain ⟨_, r, hr, _, _, _, h4, h5⟩ := Run_fetch_mem env _ e cl hcall
  obtain ⟨p1, p2⟩ := ParseFlags_names flags _ v rfl hnot hparse
  obtain ⟨c1, c2⟩ := Complete_names v args
  refine ⟨r, hr, ?_, ?_⟩
  · rw [h4, c1, p1]; rfl
  · rw [h5, c2, p2]; rfl

theorem Run_default_names_witness :
    ∃ r, (⟨[⟨"task-containers", "https://github.com/openshift-pipelines/task-containers", [],
        "catalog.yaml", "resources.tar.gz"⟩]⟩ : External).Repositories = [r] ∧
      r.CatalogName = "catalog.yaml" ∧ r.ResourcesTarballName = "resources.tar.gz" :=
  Run_default_names okEnv
    [("url", "https://github.com/openshift-pipelines/task-containers"), ("type", "tasks")]
    ["/path/to/catalog/target"] sampleCmd rfl (by decide) _ () (by decide)

/-- C2: the IgnoreVersions list of the repository is empty when the
`--ignore-versions` value is empty; otherwise it is the list of the
comma-separated segments of the value: no segment contains a comma, there is
one segment more than there are commas, joining the segments with "," gives
the value back, and it is the only list of comma-free strings that does. A tag
is found in the list exactly when it equals one of the segments. -/
theorem Run_ignore_versions {Client Catalog : Type} (env : Env Client Catalog)
    (v : GenerateFromExternalCmd) (e : External) (cl : Client)
    (hcall : Call.FetchFromExternals e cl ∈ (v.Run env).2) :
    ∃ r, e.Repositories = [r] ∧
      (v.ignoreVersions = "" → r.IgnoreVersions = []) ∧
      (v.ignoreVersions ≠ "" →
        (∀ seg ∈ r.IgnoreVersions, ',' ∉ seg.data) ∧
        r.IgnoreVersions.length = v.ignoreVersions.data.count ',' + 1 ∧
        strings.Join r.IgnoreVersions "," = v.ignoreVersions ∧
        (∀ L : List String, (∀ seg ∈ L, ',' ∉ seg.data) →
          strings.Join L "," = v.ignoreVersions → L = r.IgnoreVersions)) ∧
      (∀ T : String, r.IgnoreVersions.contains T = true ↔ ∃ seg ∈ r.IgnoreVersions, seg = T) ∧
      (v.cmd = NewCatalogGenerateFromExternalCmd.cmd →
        flagValue v "ignore-versions" = some v.ignoreVersions) := by
  obtain ⟨_, r, hr, _, _, h3, _⟩ := Run_fetch_mem env v e cl hcall
  refine ⟨r, hr, ?_, ?_, ?_, fun hcmd => (flagValue_of_cmd v hcmd).2.2.2.1⟩
  · intro h0
    rw [h3]
    simp [h0]
  · intro hne
    rw [h3, if_pos hne]
    obtain ⟨s1, s2, s3⟩ := Split_spec v.ignoreVersions ','
    refine ⟨s1, ?_, s3, ?_⟩
    · rw [s2, Count_eq_count]
    · intro L hfree hjoin
      have hL : L ≠ [] := by
        intro hnil
        subst hnil
        exact hne hjoin.symm
      exact (Split_unique v.ignoreVersions ',' L hL hfree hjoin).symm
  · intro T
    simp

theorem Run_ignore_versions_witness :
    ∃ r, (⟨[⟨"task-containers", "https://github.com/openshift-pipelines/task-containers",
        ["v0.1.0", "v0.2.0"], "catalog.yaml", "resources.tar.gz"⟩]⟩ : External).Repositories =
        [r] ∧
      (sampleIgnoreCmd.ignoreVersions = "" → r.IgnoreVersions = []) ∧
      (sampleIgnoreCmd.ignoreVersions ≠ "" →
        (∀ seg ∈ r.IgnoreVersions, ',' ∉ seg.data) ∧
        r.IgnoreVersions.length = sampleIgnoreCmd.ignoreVersions.data.count ',' + 1 ∧
        strings.Join r.IgnoreVersions "," = sampleIgnoreCmd.ignoreVersions ∧
        (∀ L : List String, (∀ seg ∈ L, ',' ∉ seg.data) →
          strings.Join L "," = sampleIgnoreCmd.ignoreVersions → L = r.IgnoreVersions)) ∧
      (∀ T : String, r.IgnoreVersions.contains T = true ↔ ∃ seg ∈ r.IgnoreVersions, seg = T) ∧
      (sampleIgnoreCmd.cmd = NewCatalogGenerateFromExternalCmd.cmd →
        flagValue sampleIgnoreCmd "ignore-versions" = some sampleIgnoreCmd.ignoreVersions) :=
  Run_ignore_versions okEnv sampleIgnoreCmd _ () (by decide)

/-- C7: the repository name is optional. The Name of the repository handed to
the fetcher is the `--name` value when that is non-empty and `path.Base` of the
url otherwise: for a non-empty url, the part of the url without its trailing
slashes that follows its last slash (or "/" when the url has only slashes),
so that a slash added at the end of a non-empty url does not change the name.
For the documented url the name is "task-containers". -/
theorem Run_repository_name {Client Catalog : Type} (env : Env Client Catalog)
    (v : GenerateFromExternalCmd) :
    (∀ (e : External) (cl : Client), Call.FetchFromExternals e cl ∈ (v.Run env).2 →
      ∃ r, e.Repositories = [r] ∧
        (v.name ≠ "" → r.Name = v.name) ∧
        (v.name = "" → r.Name = path.Base v.url) ∧
        (v.name = "" → v.url = "https://github.com/openshift-pipelines/task-containers" →
          r.Name = "task-containers") ∧
        (v.name = "" → v.url ≠ "" →
          (v.url.data.rdropWhile (fun c => c == '/') = [] ∧ r.Name = "/") ∨
          (∃ pre, v.url.data.rdropWhile (fun c => c == '/') = pre ++ r.Name.data ∧
            (pre = [] ∨ pre.getLast? = some '/') ∧ '/' ∉ r.Name.data)) ∧
        (v.cmd = NewCatalogGenerateFromExternalCmd.cmd →
          flagValue v "name" = some v.name ∧ flagValue v "url" = some v.url)) ∧
    (∀ u : String, u ≠ "" → path.Base (u ++ "/") = path.Base u) := by
  refine ⟨?_, Base_trailing_slash⟩
  intro e cl hcall
  obtain ⟨_, r, hr, h1, _⟩ := Run_fetch_mem env v e cl hcall
  refine ⟨r, hr, ?_, ?_, ?_, ?_, fun hcmd =>
    ⟨(flagValue_of_cmd v hcmd).1, (flagValue_of_cmd v hcmd).2.1⟩⟩
  · intro hn
    rw [h1, if_neg hn]
  · intro hn
    rw [h1, if_pos hn]
  · intro hn hu
    rw [h1, if_pos hn, hu]
    decide
  · intro hn hu
    rw [h1, if_pos hn]
    rcases Base_data v.url hu with h | ⟨pre, p1, p2, _, p4⟩
    · exact Or.inl h
    · exact Or.inr ⟨pre, p1, p2, p4⟩

theorem Run_repository_name_witness :
    ∃ r, (⟨[⟨"task-containers", "https://github.com/openshift-pipelines/task-containers", [],
        "catalog.yaml", "resources.tar.gz"⟩]⟩ : External).Repositories = [r] ∧
      r.Name = "task-containers" :=
  ((Run_repository_name okEnv sampleCmd).1 _ () (by decide)).imp
    (fun _ h => ⟨h.1, h.2.2.2.1 (by decide) (by decide)⟩)

/-- C10: the Name of the repository handed to the fetcher is never the empty
string, whatever the `--name` value and the url. -/
theorem Run_repository_name_ne_empty {Client Catalog : Type} (env : Env Client Catalog)
    (v : GenerateFromExternalCmd) (e : External) (cl : Client)
    (hcall : Call.FetchFromExternals e cl ∈ (v.Run env).2) :
    ∃ r, e.Repositories = [r] ∧ r.Name ≠ "" := by
  obtain ⟨_, r, hr, h1, _⟩ := Run_fetch_mem env v e cl hcall
  refine ⟨r, hr, ?_⟩
  rw [h1]
  by_cases hn : v.name = ""
  · rw [if_pos hn]
    exact Base_ne_empty v.url
  · rw [if_neg hn]
    exact hn

theorem Run_repository_name_ne_empty_witness :
    ∃ r, (⟨[⟨".", "", [], "catalog.yaml", "resources.tar.gz"⟩]⟩ : External).Repositories =
        [r] ∧ r.Name ≠ "" :=
  Run_repository_name_ne_empty okEnv NewCatalogGenerateFromExternalCmd _ () (by decide)

/-! ## Complete: the error messages -/

/-- C8: the messages of `Complete` at an empty url and at an empty resource
type. With the url empty the message is "flag --config is required", which
does not contain "--url"; with the resource type empty it is
"flag --resourceType is required", which does not contain "--type". The flags
registered on the command are `url` and `type`; no flag `config` or
`resourceType` is registered. -/
theorem Complete_messages_name_other_flags :
    (NewCatalogGenerateFromExternalCmd.Complete ["/path/to/catalog/target"]).2 =
      some "flag --config is required" ∧
    strings.Contains "flag --config is required" "--url" = false ∧
    (Lookup NewCatalogGenerateFromExternalCmd "url").isSome = true ∧
    (Lookup NewCatalogGenerateFromExternalCmd "config").isSome = false ∧
    (({ NewCatalogGenerateFromExternalCmd with
        url := "https://github.com/openshift-pipelines/task-containers" } :
      GenerateFromExternalCmd).Complete ["/path/to/catalog/target"]).2 =
      some "flag --resourceType is required" ∧
    strings.Contains "flag --resourceType is required" "--type" = false ∧
    (Lookup NewCatalogGenerateFromExternalCmd "type").isSome = true ∧
    (Lookup NewCatalogGenerateFromExternalCmd "resourceType").isSome = false := by
  decide

end CatalogCD
